import Mathlib

/-!
Verification of the Shopify SEO title pipeline (`src/shopify_seo/processor.py`)
against its natural-language specification.

Strings are modelled as `List Char`.  Python's `str.strip` / `\s` whitespace
class is modelled by the ASCII whitespace characters (space, tab, newline,
carriage return, vertical tab, form feed); the exotic Unicode whitespace
accepted by Python is out of scope of every statement below.
-/

namespace ShopifySeo

/-- Python whitespace test (the ASCII part of `str.strip` / regex `\s`). -/
def isWS (c : Char) : Bool :=
  c = ' ' || c = '\t' || c = '\n' || c = '\r' || c = '\x0B' || c = '\x0C'

/-- Remove leading whitespace (Python `s.lstrip()`). -/
def ltrim (l : List Char) : List Char := l.dropWhile isWS

/-- Remove trailing whitespace (Python `s.rstrip()`). -/
def rtrim (l : List Char) : List Char := (l.reverse.dropWhile isWS).reverse

/-- Python `s.strip()`: remove leading and trailing whitespace. -/
def pyStrip (l : List Char) : List Char := rtrim (ltrim l)

/-- Python `s.lower()` restricted to ASCII letters. -/
def pyLower (l : List Char) : List Char :=
  l.map fun c => if 'A' ≤ c ∧ c ≤ 'Z' then Char.ofNat (c.toNat + 32) else c

/-- Python `s.rsplit(" ", 1)[0]`: everything before the last space character
of `s`, or all of `s` when `s` contains no space. -/
def takeToLastSpace : List Char → List Char
  | [] => []
  | c :: cs =>
    if ' ' ∈ cs then c :: takeToLastSpace cs
    else if c = ' ' then [] else c :: cs

/-- `ShopifySEOProcessor._enforce_length` (processor.py:110-131):
strip the title; if it fits the bound return it; otherwise cut at the bound,
drop the final (possibly split) word after the last space of the cut, fall
back to the raw cut when that dropped everything, and strip the result. -/
def enforce_length (maxLen : Nat) (title : List Char) : List Char :=
  if (pyStrip title).length ≤ maxLen then pyStrip title
  else if takeToLastSpace ((pyStrip title).take maxLen) = [] then
    pyStrip ((pyStrip title).take maxLen)
  else
    pyStrip (takeToLastSpace ((pyStrip title).take maxLen))

/-! ### Library-style lemmas about stripping -/

theorem dropWhile_dropWhile_self (p : Char → Bool) (l : List Char) :
    (l.dropWhile p).dropWhile p = l.dropWhile p := by
  induction l with
  | nil => rfl
  | cons c cs ih =>
    by_cases h : p c
    · simp only [List.dropWhile_cons, h, if_true]
      exact ih
    · simp [List.dropWhile_cons, h]

theorem exists_append_dropWhile (p : Char → Bool) (l : List Char) :
    ∃ s, s ++ l.dropWhile p = l := by
  induction l with
  | nil => exact ⟨[], rfl⟩
  | cons c cs ih =>
    by_cases h : p c
    · obtain ⟨s, hs⟩ := ih
      exact ⟨c :: s, by simp only [List.dropWhile_cons, h, if_true, List.cons_append, hs]⟩
    · exact ⟨[], by simp [List.dropWhile_cons, h]⟩

theorem length_dropWhile_le' (p : Char → Bool) (l : List Char) :
    (l.dropWhile p).length ≤ l.length := by
  obtain ⟨s, hs⟩ := exists_append_dropWhile p l
  have := congrArg List.length hs
  simp only [List.length_append] at this
  omega

theorem ltrim_head_not_ws {m : List Char} {c : Char} {cs : List Char}
    (hm : ltrim m = m) (he : m = c :: cs) : isWS c = false := by
  subst he
  by_contra h
  have hc : isWS c = true := by
    cases hw : isWS c with
    | false => exact absurd hw h
    | true => rfl
  unfold ltrim at hm
  rw [List.dropWhile_cons, hc, if_pos rfl] at hm
  have h1 := length_dropWhile_le' isWS cs
  have h2 := congrArg List.length hm
  simp only [List.length_cons] at h2
  omega

theorem ltrim_of_append {m p t : List Char} (hm : ltrim m = m) (hp : p ++ t = m) :
    ltrim p = p := by
  cases p with
  | nil => rfl
  | cons c cs =>
    have hme : m = c :: (cs ++ t) := by rw [← hp]; rfl
    have hc : isWS c = false := ltrim_head_not_ws hm hme
    unfold ltrim
    rw [List.dropWhile_cons, hc]
    simp

theorem rtrim_append (l : List Char) : ∃ t, rtrim l ++ t = l := by
  obtain ⟨s, hs⟩ := exists_append_dropWhile isWS l.reverse
  refine ⟨s.reverse, ?_⟩
  have := congrArg List.reverse hs
  rw [List.reverse_append, List.reverse_reverse] at this
  exact this

theorem ltrim_rtrim {m : List Char} (hm : ltrim m = m) : ltrim (rtrim m) = rtrim m := by
  obtain ⟨t, ht⟩ := rtrim_append m
  exact ltrim_of_append hm ht

theorem rtrim_rtrim (l : List Char) : rtrim (rtrim l) = rtrim l := by
  unfold rtrim
  rw [List.reverse_reverse, dropWhile_dropWhile_self]

theorem ltrim_pyStrip (l : List Char) : ltrim (pyStrip l) = pyStrip l :=
  ltrim_rtrim (dropWhile_dropWhile_self isWS l)

theorem pyStrip_idem (l : List Char) : pyStrip (pyStrip l) = pyStrip l := by
  show rtrim (ltrim (pyStrip l)) = pyStrip l
  rw [ltrim_pyStrip]
  exact rtrim_rtrim (ltrim l)

theorem pyStrip_length_le (l : List Char) : (pyStrip l).length ≤ l.length := by
  have h1 : (rtrim (ltrim l)).length ≤ (ltrim l).length := by
    unfold rtrim
    rw [List.length_reverse]
    calc ((ltrim l).reverse.dropWhile isWS).length
        ≤ (ltrim l).reverse.length := length_dropWhile_le' isWS (ltrim l).reverse
      _ = (ltrim l).length := List.length_reverse _
  have h2 : (ltrim l).length ≤ l.length := length_dropWhile_le' isWS l
  exact le_trans h1 h2

theorem takeToLastSpace_length_le (l : List Char) :
    (takeToLastSpace l).length ≤ l.length := by
  induction l with
  | nil => simp [takeToLastSpace]
  | cons c cs ih =>
    by_cases h : ' ' ∈ cs
    · simp only [takeToLastSpace, if_pos h, List.length_cons]
      omega
    · by_cases hc : c = ' '
      · simp [takeToLastSpace, if_neg h, hc]
      · simp [takeToLastSpace, if_neg h, hc]

/-! ### Claims C3 and C5: the LengthEnforcer contract -/

theorem enforce_length_le (n : Nat) (s : List Char) :
    (enforce_length n s).length ≤ n := by
  unfold enforce_length
  split
  · next h => exact h
  · split
    · next h =>
      calc (pyStrip ((pyStrip s).take n)).length
          ≤ ((pyStrip s).take n).length := pyStrip_length_le _
        _ ≤ n := by rw [List.length_take]; omega
    · next h =>
      calc (pyStrip (takeToLastSpace ((pyStrip s).take n))).length
          ≤ (takeToLastSpace ((pyStrip s).take n)).length := pyStrip_length_le _
        _ ≤ ((pyStrip s).take n).length := takeToLastSpace_length_le _
        _ ≤ n := by rw [List.length_take]; omega

theorem enforce_length_stripped (n : Nat) (s : List Char) :
    pyStrip (enforce_length n s) = enforce_length n s := by
  unfold enforce_length
  split
  · exact pyStrip_idem s
  · split
    · exact pyStrip_idem _
    · exact pyStrip_idem _

/-- C3: for every string `s` and bound `n > 0`, `len(enforce(s, n)) ≤ n`, and
if `len(s) ≤ n` then `enforce(s, n)` is `s` with leading/trailing whitespace
stripped. -/
theorem enforce_length_spec (n : Nat) (s : List Char) (_hn : 0 < n) :
    (enforce_length n s).length ≤ n ∧
      (s.length ≤ n → enforce_length n s = pyStrip s) := by
  refine ⟨enforce_length_le n s, fun hs => ?_⟩
  have h : (pyStrip s).length ≤ n := le_trans (pyStrip_length_le s) hs
  unfold enforce_length
  rw [if_pos h]

/-- C3 witness: `enforce_length` at a concrete input. -/
theorem enforce_length_spec_witness :
    (enforce_length 3 (' ' :: 'a' :: 'b' :: [])).length ≤ 3 ∧
      ((' ' :: 'a' :: 'b' :: []).length ≤ 3 →
        enforce_length 3 (' ' :: 'a' :: 'b' :: []) = pyStrip (' ' :: 'a' :: 'b' :: [])) :=
  enforce_length_spec 3 (' ' :: 'a' :: 'b' :: []) (by decide)

theorem enforce_length_eq_self (n : Nat) (r : List Char)
    (h1 : pyStrip r = r) (h2 : r.length ≤ n) : enforce_length n r = r := by
  unfold enforce_length
  rw [h1, if_pos h2]

/-- C5: `enforce` is idempotent: `enforce(enforce(s, n), n) = enforce(s, n)`
for every string `s` and bound `n > 0`. -/
theorem enforce_length_idem (n : Nat) (s : List Char) (_hn : 0 < n) :
    enforce_length n (enforce_length n s) = enforce_length n s :=
  enforce_length_eq_self n (enforce_length n s) (enforce_length_stripped n s)
    (enforce_length_le n s)

/-- C5 witness: idempotence at a concrete input. -/
theorem enforce_length_idem_witness :
    enforce_length 4 ('a' :: 'b' :: ' ' :: 'c' :: 'd' :: 'e' :: []) =
      enforce_length 4 (enforce_length 4 ('a' :: 'b' :: ' ' :: 'c' :: 'd' :: 'e' :: [])) :=
  (enforce_length_idem 4 ('a' :: 'b' :: ' ' :: 'c' :: 'd' :: 'e' :: []) (by decide)).symm

/-! ### Claim C4: word-boundary behaviour of the length cut -/

theorem takeToLastSpace_of_not_mem {l : List Char} (h : ' ' ∉ l) :
    takeToLastSpace l = l := by
  cases l with
  | nil => rfl
  | cons c cs =>
    have h1 : ' ' ∉ cs := fun hm => h (List.mem_cons_of_mem c hm)
    have h2 : ¬c = ' ' := fun hc => h (by rw [hc]; exact List.mem_cons_self _ _)
    simp [takeToLastSpace, h1, h2]

theorem takeToLastSpace_of_mem {l : List Char} (h : ' ' ∈ l) :
    ∃ k, k < l.length ∧ l.get? k = some ' ' ∧ takeToLastSpace l = l.take k := by
  induction l with
  | nil => cases h
  | cons c cs ih =>
    by_cases hm : ' ' ∈ cs
    · obtain ⟨k, hk1, hk2, hk3⟩ := ih hm
      refine ⟨k + 1, by simpa using hk1, by simpa using hk2, ?_⟩
      simp [takeToLastSpace, hm, hk3]
    · have hc : c = ' ' := by
        rcases List.mem_cons.mp h with h1 | h2
        · exact h1.symm
        · exact absurd h2 hm
      refine ⟨0, by simp, by simp [hc], ?_⟩
      simp [takeToLastSpace, hm, hc]

theorem get?_take_eq (l : List Char) (n k : Nat) (h : k < n) :
    (l.take n).get? k = l.get? k := by
  induction l generalizing n k with
  | nil => simp
  | cons c cs ih =>
    cases n with
    | zero => omega
    | succ n =>
      cases k with
      | zero => simp
      | succ k => simpa using ih n k (by omega)

theorem pyStrip_get_zero_not_space (text : List Char) :
    (pyStrip text).get? 0 ≠ some ' ' := by
  intro h
  cases ht : pyStrip text with
  | nil => rw [ht] at h; simp at h
  | cons c cs =>
    rw [ht] at h
    simp only [List.get?_cons_zero, Option.some.injEq] at h
    have hws := ltrim_head_not_ws (ltrim_pyStrip text) ht
    rw [h] at hws
    simp [isWS] at hws

theorem take_ne_nil_of {l : List Char} {k : Nat} (hk : 0 < k) (hl : l ≠ []) :
    l.take k ≠ [] := by
  cases l with
  | nil => exact absurd rfl hl
  | cons c cs =>
    cases k with
    | zero => omega
    | succ k => simp

theorem takeWhile_length_of_take {l : List Char} {n : Nat}
    (hn : n ≤ l.length) (h : ' ' ∉ l.take n) :
    n ≤ (l.takeWhile (fun c => c != ' ')).length := by
  induction l generalizing n with
  | nil => simpa using hn
  | cons c cs ih =>
    cases n with
    | zero => omega
    | succ n =>
      have hc : c ≠ ' ' := by
        intro hc
        exact h (by simp [hc])
      have h2 : ' ' ∉ cs.take n := by
        intro hm
        exact h (by simp [hm])
      have hrec := ih (by simpa using hn) h2
      have hb : (c != ' ') = true := bne_iff_ne.mpr hc
      simp only [List.takeWhile_cons, hb, if_true, List.length_cons]
      omega

/-- The length of the first space-delimited word of `text` (leading whitespace
skipped) — the spec's "first word". -/
def firstWordLen (text : List Char) : Nat :=
  ((ltrim text).takeWhile (fun c => !(isWS c))).length

/-- Boolean rendering of C4's main clause, literally over the RAW `text`:
the enforced title is some prefix of `text`, cut at end-of-string or at a
whitespace boundary, with surrounding whitespace removed. -/
def c4BoundaryCutB (n : Nat) (text : List Char) : Bool :=
  (List.range (text.length + 1)).any fun k =>
    (enforce_length n text == pyStrip (text.take k)) &&
    ((k == text.length) ||
      (match text.get? k with
       | some c => isWS c
       | none => false))

/-- Boolean rendering of C4's except-clause, literally over the RAW `text`:
the first word exceeds the bound and the result is the hard character cut of
`text` at the bound, whitespace-trimmed. -/
def c4HardCutB (n : Nat) (text : List Char) : Bool :=
  (decide (n < firstWordLen text)) &&
  (enforce_length n text == pyStrip (text.take n))

/-- C4 counterexample: for `text = " " ++ "a"*10` and `maxLength = 5` the
enforced title is `"aaaaa"`, which is neither a whitespace-boundary cut of the
raw `text` (it splits the ten-`a` word) nor the hard character cut of the raw
`text` at 5 (that would be `strip(" aaaa") = "aaaa"`): the claim's cuts happen
on the whitespace-stripped text, not on `text` itself. -/
theorem enforce_length_raw_text_ce :
    c4BoundaryCutB 5 (' ' :: List.replicate 10 'a') = false ∧
    c4HardCutB 5 (' ' :: List.replicate 10 'a') = false ∧
    enforce_length 5 (' ' :: List.replicate 10 'a') = List.replicate 5 'a' := by
  decide

/-- C4 (amended): for `0 < maxLength < len(strip(text))`, write
`t = strip(text)`.  If the first `maxLength` characters of `t` contain a
space, the enforced title is `t` cut at a space boundary (a position `k` with
`t[k] = ' '`), whitespace-trimmed — no space-delimited word is split.
Otherwise the first word of `t` alone reaches or exceeds `maxLength` and the
result is the hard character cut `t[:maxLength]`, whitespace-trimmed. -/
theorem enforce_length_word_boundary (n : Nat) (text : List Char)
    (hn : 0 < n) (hlen : n < (pyStrip text).length) :
    (' ' ∈ (pyStrip text).take n →
      ∃ k, 0 < k ∧ k < n ∧ (pyStrip text).get? k = some ' ' ∧
        enforce_length n text = pyStrip ((pyStrip text).take k)) ∧
    (' ' ∉ (pyStrip text).take n →
      enforce_length n text = pyStrip ((pyStrip text).take n) ∧
      n ≤ ((pyStrip text).takeWhile (fun c => c != ' ')).length) := by
  have hnotle : ¬(pyStrip text).length ≤ n := by omega
  have htne : pyStrip text ≠ [] := by
    intro h
    rw [h] at hlen
    simp at hlen
  have hlentake : ((pyStrip text).take n).length = n := by
    rw [List.length_take]
    omega
  constructor
  · intro hmem
    obtain ⟨k, hk1, hk2, hk3⟩ := takeToLastSpace_of_mem hmem
    rw [hlentake] at hk1
    have hget : (pyStrip text).get? k = some ' ' := by
      rw [← get?_take_eq (pyStrip text) n k hk1]
      exact hk2
    have hkpos : 0 < k := by
      rcases Nat.eq_zero_or_pos k with h0 | h0
      · rw [h0] at hget
        exact absurd hget (pyStrip_get_zero_not_space text)
      · exact h0
    have htake : ((pyStrip text).take n).take k = (pyStrip text).take k := by
      rw [List.take_take]
      congr 1
      omega
    rw [htake] at hk3
    have hne : takeToLastSpace ((pyStrip text).take n) ≠ [] := by
      rw [hk3]
      exact take_ne_nil_of hkpos htne
    refine ⟨k, hkpos, hk1, hget, ?_⟩
    unfold enforce_length
    rw [if_neg hnotle, if_neg hne, hk3]
  · intro hmem
    have heq : takeToLastSpace ((pyStrip text).take n) = (pyStrip text).take n :=
      takeToLastSpace_of_not_mem hmem
    have hne : takeToLastSpace ((pyStrip text).take n) ≠ [] := by
      rw [heq]
      exact take_ne_nil_of hn htne
    constructor
    · unfold enforce_length
      rw [if_neg hnotle, if_neg hne, heq]
    · exact takeWhile_length_of_take (by omega) hmem

/-- C4 witness: the amended theorem applied at a concrete over-long input
without a space in its first four characters. -/
theorem enforce_length_word_boundary_witness :
    enforce_length 4 ('a' :: 'b' :: 'c' :: 'd' :: 'e' :: 'f' :: 'g' :: 'h' :: []) =
      pyStrip ((pyStrip ('a' :: 'b' :: 'c' :: 'd' :: 'e' :: 'f' :: 'g' :: 'h' :: [])).take 4) ∧
    4 ≤ ((pyStrip ('a' :: 'b' :: 'c' :: 'd' :: 'e' :: 'f' :: 'g' :: 'h' :: [])).takeWhile
          (fun c => c != ' ')).length :=
  (enforce_length_word_boundary 4
      ('a' :: 'b' :: 'c' :: 'd' :: 'e' :: 'f' :: 'g' :: 'h' :: [])
      (by decide) (by decide)).2 (by decide)

/-! ### JSON model for `_extract_title_from_model_output`

The extractor calls `json.loads` on the brace-delimited span found by the
greedy regex `\{.*\}` (DOTALL).  `json.loads` is modelled by a recursive
descent parser over the JSON grammar (objects, arrays, strings with the JSON
escapes, numbers, `true`/`false`/`null`), with explicit fuel for termination.
Python's non-standard `NaN`/`Infinity` float constants and `\uXXXX` surrogate
pairing are not modelled; no statement below depends on them. -/

def lbrace : Char := Char.ofNat 123

def rbrace : Char := Char.ofNat 125

def apos : Char := Char.ofNat 39

mutual

inductive JVal where
  | jnull : JVal
  | jbool : Bool → JVal
  | jstr : List Char → JVal
  | jnum : List Char → JVal
  | jarr : JArr → JVal
  | jobj : JObj → JVal
deriving DecidableEq

inductive JArr where
  | nil : JArr
  | cons : JVal → JArr → JArr
deriving DecidableEq

inductive JObj where
  | nil : JObj
  | cons : List Char → JVal → JObj → JObj
deriving DecidableEq

end

/-- JSON inter-token whitespace. -/
def jsonWS (c : Char) : Bool := c = ' ' || c = '\t' || c = '\n' || c = '\r'

def skipJWs (l : List Char) : List Char := l.dropWhile jsonWS

def hexVal (c : Char) : Option Nat :=
  if '0' ≤ c ∧ c ≤ '9' then some (c.toNat - 48)
  else if 'a' ≤ c ∧ c ≤ 'f' then some (c.toNat - 87)
  else if 'A' ≤ c ∧ c ≤ 'F' then some (c.toNat - 55)
  else none

def escChar (c : Char) : Option Char :=
  if c = '"' then some '"'
  else if c = '\\' then some '\\'
  else if c = '/' then some '/'
  else if c = 'b' then some (Char.ofNat 8)
  else if c = 'f' then some (Char.ofNat 12)
  else if c = 'n' then some '\n'
  else if c = 'r' then some '\r'
  else if c = 't' then some '\t'
  else none

/-- Parse the body of a JSON string (the opening quote already consumed),
returning the decoded characters and the rest of the input. -/
def parseJStr : Nat → List Char → Option (List Char × List Char)
  | 0, _ => none
  | _ + 1, [] => none
  | fuel + 1, c :: rest =>
    if c = '"' then some ([], rest)
    else if c = '\\' then
      match rest with
      | [] => none
      | e :: rest2 =>
        if e = 'u' then
          match rest2 with
          | a :: b :: c2 :: d :: rest3 =>
            match hexVal a, hexVal b, hexVal c2, hexVal d with
            | some ha, some hb, some hc, some hd =>
              match parseJStr fuel rest3 with
              | some (s, r) => some (Char.ofNat (((ha * 16 + hb) * 16 + hc) * 16 + hd) :: s, r)
              | none => none
            | _, _, _, _ => none
          | _ => none
        else
          match escChar e with
          | some ec =>
            match parseJStr fuel rest2 with
            | some (s, r) => some (ec :: s, r)
            | none => none
          | none => none
    else if c.toNat < 32 then none
    else
      match parseJStr fuel rest with
      | some (s, r) => some (c :: s, r)
      | none => none

/-- Lex a JSON number, returning its lexeme and the rest of the input. -/
def parseNum (l : List Char) : Option (List Char × List Char) :=
  let (neg, l1) := match l with
    | c :: r => if c = '-' then ([c], r) else (([] : List Char), l)
    | [] => ([], l)
  match l1 with
  | [] => none
  | c :: _ =>
    if c.isDigit then
      let (ip, r1) :=
        if c = '0' then ([c], l1.drop 1)
        else (l1.takeWhile Char.isDigit, l1.dropWhile Char.isDigit)
      let (fp, r2) :=
        match r1 with
        | '.' :: r =>
          if (r.takeWhile Char.isDigit) = [] then (([] : List Char), r1)
          else ('.' :: r.takeWhile Char.isDigit, r.dropWhile Char.isDigit)
        | _ => ([], r1)
      let (ep, r3) :=
        match r2 with
        | e :: r =>
          if e = 'e' ∨ e = 'E' then
            match r with
            | s :: r' =>
              if s = '+' ∨ s = '-' then
                if (r'.takeWhile Char.isDigit) = [] then (([] : List Char), r2)
                else (e :: s :: r'.takeWhile Char.isDigit, r'.dropWhile Char.isDigit)
              else
                if (r.takeWhile Char.isDigit) = [] then (([] : List Char), r2)
                else (e :: r.takeWhile Char.isDigit, r.dropWhile Char.isDigit)
            | [] => (([] : List Char), r2)
          else ([], r2)
        | [] => ([], r2)
      some (neg ++ ip ++ fp ++ ep, r3)
    else none

/-- Consume an expected literal. -/
def dropLit : List Char → List Char → Option (List Char)
  | [], l => some l
  | _ :: _, [] => none
  | c :: cs, x :: xs => if x = c then dropLit cs xs else none

mutual

/-- Parse one JSON value (leading whitespace allowed). -/
def parseValue : Nat → List Char → Option (JVal × List Char)
  | 0, _ => none
  | fuel + 1, l =>
    match skipJWs l with
    | [] => none
    | c :: rest =>
      if c = lbrace then parseObjBody fuel rest
      else if c = '[' then parseArrBody fuel rest
      else if c = '"' then
        match parseJStr (fuel + 1) rest with
        | some (s, r) => some (JVal.jstr s, r)
        | none => none
      else if c = 't' then
        match dropLit (("rue").toList) rest with
        | some r => some (JVal.jbool true, r)
        | none => none
      else if c = 'f' then
        match dropLit (("alse").toList) rest with
        | some r => some (JVal.jbool false, r)
        | none => none
      else if c = 'n' then
        match dropLit (("ull").toList) rest with
        | some r => some (JVal.jnull, r)
        | none => none
      else
        match parseNum (c :: rest) with
        | some (lex, r) => some (JVal.jnum lex, r)
        | none => none

/-- Parse an object body (the `{` already consumed). -/
def parseObjBody : Nat → List Char → Option (JVal × List Char)
  | 0, _ => none
  | fuel + 1, l =>
    match skipJWs l with
    | [] => none
    | c :: rest =>
      if c = rbrace then some (JVal.jobj JObj.nil, rest)
      else
        match parseMembers fuel (c :: rest) with
        | some (o, r) => some (JVal.jobj o, r)
        | none => none

/-- Parse the non-empty member list of an object, up to and including `}`. -/
def parseMembers : Nat → List Char → Option (JObj × List Char)
  | 0, _ => none
  | fuel + 1, l =>
    match l with
    | [] => none
    | c :: rest =>
      if c = '"' then
        match parseJStr (fuel + 1) rest with
        | some (k, r1) =>
          match skipJWs r1 with
          | ':' :: r3 =>
            match parseValue fuel r3 with
            | some (v, r4) =>
              (match skipJWs r4 with
               | ',' :: r6 =>
                 match parseMembers fuel (skipJWs r6) with
                 | some (o, r7) => some (JObj.cons k v o, r7)
                 | none => none
               | c2 :: r6 =>
                 if c2 = rbrace then some (JObj.cons k v JObj.nil, r6) else none
               | [] => none)
            | none => none
          | _ => none
        | none => none
      else none

/-- Parse an array body (the `[` already consumed). -/
def parseArrBody : Nat → List Char → Option (JVal × List Char)
  | 0, _ => none
  | fuel + 1, l =>
    match skipJWs l with
    | [] => none
    | c :: rest =>
      if c = ']' then some (JVal.jarr JArr.nil, rest)
      else
        match parseItems fuel (c :: rest) with
        | some (a, r) => some (JVal.jarr a, r)
        | none => none

/-- Parse the non-empty item list of an array, up to and including `]`. -/
def parseItems : Nat → List Char → Option (JArr × List Char)
  | 0, _ => none
  | fuel + 1, l =>
    match parseValue fuel l with
    | some (v, r1) =>
      (match skipJWs r1 with
       | ',' :: r2 =>
         match parseItems fuel r2 with
         | some (a, r3) => some (JArr.cons v a, r3)
         | none => none
       | c :: r2 => if c = ']' then some (JArr.cons v JArr.nil, r2) else none
       | [] => none)
    | none => none

end

/-- Python `json.loads`: parse one JSON value and require only trailing
whitespace after it. -/
def pyJsonLoads (l : List Char) : Option JVal :=
  match parseValue (l.length + 2) l with
  | some (v, rest) => if skipJWs rest = [] then some v else none
  | none => none

/-- Python dict indexing after `json.loads`: a duplicated key keeps the
last occurrence. -/
def lookupLast : JObj → List Char → Option JVal
  | JObj.nil, _ => none
  | JObj.cons k v rest, key =>
    match lookupLast rest key with
    | some w => some w
    | none => if k = key then some v else none

/-- Zero test on a JSON number lexeme: every mantissa digit is `0`. -/
def numIsZero (lex : List Char) : Bool :=
  ((lex.takeWhile (fun c => c != 'e' && c != 'E')).filter Char.isDigit).all
    (fun c => c == '0')

/-- Python truthiness of a decoded JSON value (`if obj[key]:`). -/
def pyTruthy : JVal → Bool
  | JVal.jnull => false
  | JVal.jbool b => b
  | JVal.jstr s => !s.isEmpty
  | JVal.jnum lex => !(numIsZero lex)
  | JVal.jarr JArr.nil => false
  | JVal.jarr _ => true
  | JVal.jobj JObj.nil => false
  | JVal.jobj _ => true

mutual

/-- Python `repr` of a decoded JSON value (string escaping inside `repr` of
nested containers is not reproduced; no statement depends on it). -/
def reprV : JVal → List Char
  | JVal.jnull => ("None").toList
  | JVal.jbool true => ("True").toList
  | JVal.jbool false => ("False").toList
  | JVal.jstr s => apos :: s ++ [apos]
  | JVal.jnum lex => lex
  | JVal.jarr a => '[' :: reprA a ++ [']']
  | JVal.jobj o => lbrace :: reprO o ++ [rbrace]

def reprA : JArr → List Char
  | JArr.nil => []
  | JArr.cons v JArr.nil => reprV v
  | JArr.cons v rest => reprV v ++ ',' :: ' ' :: reprA rest

def reprO : JObj → List Char
  | JObj.nil => []
  | JObj.cons k v JObj.nil => apos :: k ++ apos :: ':' :: ' ' :: reprV v
  | JObj.cons k v rest =>
    apos :: k ++ apos :: ':' :: ' ' :: reprV v ++ ',' :: ' ' :: reprO rest

end

/-- Python `str(value)` for a decoded JSON value (for a float the lexeme
stands in for Python's float formatting; no statement depends on it). -/
def strOf : JVal → List Char
  | JVal.jstr s => s
  | JVal.jnum lex => lex
  | JVal.jbool true => ("True").toList
  | JVal.jbool false => ("False").toList
  | JVal.jnull => ("None").toList
  | v => reprV v

/-- One iteration of the `for key in (...)` loop body:
`if key in obj and obj[key]: return str(obj[key]).strip()`. -/
def tryKey (o : JObj) (key : List Char) : Option (List Char) :=
  match lookupLast o key with
  | some v => if pyTruthy v then some (pyStrip (strOf v)) else none
  | none => none

def keyTitle : List Char := ("title").toList

def keyNewTitle : List Char := ("new_title").toList

def keyRewrittenTitle : List Char := ("rewritten_title").toList

/-- The key loop of the JSON attempt, in source order. -/
def tryKeys (o : JObj) : Option (List Char) :=
  (tryKey o keyTitle).orElse fun _ =>
    (tryKey o keyNewTitle).orElse fun _ => tryKey o keyRewrittenTitle

/-- `re.search(r'\{.*\}', content, flags=re.S)`: greedy DOTALL match from the
first `{` to the last `}`, when the first `{` comes before the last `}`. -/
def braceSpan (l : List Char) : Option (List Char) :=
  match l.findIdx? (fun c => c = lbrace), (l.reverse.findIdx? (fun c => c = rbrace)) with
  | some i, some j' =>
    let j := l.length - 1 - j'
    if i < j then some ((l.drop i).take (j - i + 1)) else none
  | _, _ => none

/-- Step 1 of the extractor: JSON object attempt (parse failures fall
through, as the caught exceptions do in the source). -/
def jsonAttempt (c : List Char) : Option (List Char) :=
  match braceSpan c with
  | none => none
  | some span =>
    match pyJsonLoads span with
    | some (JVal.jobj o) => tryKeys o
    | _ => none

def isQuote (c : Char) : Bool := c = '"' || c = '“' || c = '”'

/-- Scan for the closing quote of `re.search(r'["“”](.*?)["“”]', content)`:
`.` does not cross a newline, and the lazy group stops at the first quote. -/
def scanClose (acc : List Char) : List Char → Option (List Char)
  | [] => none
  | c :: cs =>
    if isQuote c then some acc.reverse
    else if c = '\n' then none
    else scanClose (c :: acc) cs

/-- The first quote pair on one line: group 1 of the quoted-substring
regex. -/
def findQuote : List Char → Option (List Char)
  | [] => none
  | c :: cs =>
    if isQuote c then
      match scanClose [] cs with
      | some inner => some inner
      | none => findQuote cs
    else findQuote cs

/-- Step 2 of the extractor: quoted substring, kept only when its strip is
non-empty. -/
def quoteAttempt (c : List Char) : Option (List Char) :=
  match findQuote c with
  | some inner => if (pyStrip inner).isEmpty then none else some (pyStrip inner)
  | none => none

def isLineSep (c : Char) : Bool := c = '\n' || c = '\r' || c = '\x0B' || c = '\x0C'

/-- Python `str.splitlines` (restricted to the ASCII line separators). -/
def splitLinesGo (cur : List Char) : List Char → List (List Char)
  | [] => if cur = [] then [] else [cur.reverse]
  | '\r' :: '\n' :: rest => cur.reverse :: splitLinesGo [] rest
  | c :: rest =>
    if isLineSep c then cur.reverse :: splitLinesGo [] rest
    else splitLinesGo (c :: cur) rest

def splitLines (l : List Char) : List (List Char) := splitLinesGo [] l

/-- Case-insensitive test that `lab` starts `s` (the anchored `re.I`
label match). -/
def startsCI (lab s : List Char) : Bool :=
  decide (lab.length ≤ s.length) && (pyLower (s.take lab.length) == pyLower lab)

def label1 : List Char := ("New Title:").toList

def label2 : List Char := ("Title:").toList

def label3 : List Char := ("Rewritten Title:").toList

def label4 : List Char :=
  ("Here").toList ++ [apos] ++ ("s a rewritten title that is concise:").toList

/-- `re.sub(r'^(New Title:|Title:|...)\s*', '', last, flags=re.I)`: drop the
first alternative that matches at the start, plus following whitespace. -/
def stripLabel (s : List Char) : List Char :=
  if startsCI label1 s then (s.drop label1.length).dropWhile isWS
  else if startsCI label2 s then (s.drop label2.length).dropWhile isWS
  else if startsCI label3 s then (s.drop label3.length).dropWhile isWS
  else if startsCI label4 s then (s.drop label4.length).dropWhile isWS
  else s

/-- Python `s.strip(' "\'')` as used on the last line. -/
def stripQuoteSet (c : Char) : Bool := c = ' ' || c = '"' || c = apos

def stripChars (l : List Char) : List Char :=
  ((l.dropWhile stripQuoteSet).reverse.dropWhile stripQuoteSet).reverse

/-- Step 3 of the extractor: last non-empty line, label and quote/space
characters stripped. -/
def lastLineAttempt (c : List Char) : Option (List Char) :=
  let lines := ((splitLines c).map pyStrip).filter (fun ln => !ln.isEmpty)
  match lines.getLast? with
  | none => none
  | some last =>
    let cleaned := stripChars (stripLabel last)
    if cleaned = [] then none else some cleaned

/-- Python `content.split()`: split on whitespace runs, no empty fields. -/
def splitWsGo (cur : List Char) : List Char → List (List Char)
  | [] => if cur = [] then [] else [cur.reverse]
  | c :: rest =>
    if isWS c then
      if cur = [] then splitWsGo [] rest else cur.reverse :: splitWsGo [] rest
    else splitWsGo (c :: cur) rest

def pySplitWs (l : List Char) : List (List Char) := splitWsGo [] l

/-- Python `" ".join(xs)`. -/
def joinSpace : List (List Char) → List Char
  | [] => []
  | [x] => x
  | x :: xs => x ++ ' ' :: joinSpace xs

/-- `ShopifySEOProcessor._extract_title_from_model_output`
(processor.py:62-108): strip; empty input gives `""`; then the JSON attempt,
the quoted-substring attempt, the last-line attempt, and finally the whole
content condensed to one line. -/
def extract_title (content : List Char) : List Char :=
  let c := pyStrip content
  if c = [] then []
  else
    match jsonAttempt c with
    | some v => v
    | none =>
      match quoteAttempt c with
      | some v => v
      | none =>
        match lastLineAttempt c with
        | some v => v
        | none => joinSpace (pySplitWs c)

/-! ### Claims C6 and C7: the extraction fallback chain -/

/-- Contiguous-substring test (Python `sub in s`). -/
def occursIn (needle hay : List Char) : Bool :=
  hay.tails.any (fun t => needle.isPrefixOf t)

theorem extract_of_jsonAttempt {content v : List Char}
    (hc : pyStrip content ≠ []) (h : jsonAttempt (pyStrip content) = some v) :
    extract_title content = v := by
  simp only [extract_title]
  rw [if_neg hc, h]

/-- The key is absent, or present with a falsy value (so the source's key
loop moves on). -/
def keyAbsentOrFalsy (o : JObj) (key : List Char) : Bool :=
  match lookupLast o key with
  | none => true
  | some v => !pyTruthy v

theorem tryKey_none {o : JObj} {key : List Char}
    (h : keyAbsentOrFalsy o key = true) : tryKey o key = none := by
  unfold keyAbsentOrFalsy at h
  unfold tryKey
  cases hl : lookupLast o key with
  | none => rfl
  | some v =>
    rw [hl] at h
    simp only [Bool.not_eq_true'] at h
    simp [h]

theorem tryKey_some {o : JObj} {key : List Char} {jv : JVal}
    (h : lookupLast o key = some jv) (ht : pyTruthy jv = true) :
    tryKey o key = some (pyStrip (strOf jv)) := by
  unfold tryKey
  rw [h]
  simp [ht]

/-- C6 (amended): when the greedy brace span of the stripped raw output —
from its first `{` to its last `}` — parses as a JSON object, and one of the
keys `title`, `new_title`, `rewritten_title` (in this priority order, each
tried only when the earlier ones are absent or falsy) holds a truthy value,
`extract` returns that value, converted to a string and trimmed, and this
structured rule takes priority over all the other heuristics. -/
theorem extract_json_greedy_span (content span : List Char) (o : JObj)
    (h1 : braceSpan (pyStrip content) = some span)
    (h2 : pyJsonLoads span = some (JVal.jobj o)) :
    (∀ jv, lookupLast o keyTitle = some jv → pyTruthy jv = true →
      extract_title content = pyStrip (strOf jv)) ∧
    (keyAbsentOrFalsy o keyTitle = true →
      ∀ jv, lookupLast o keyNewTitle = some jv → pyTruthy jv = true →
        extract_title content = pyStrip (strOf jv)) ∧
    (keyAbsentOrFalsy o keyTitle = true → keyAbsentOrFalsy o keyNewTitle = true →
      ∀ jv, lookupLast o keyRewrittenTitle = some jv → pyTruthy jv = true →
        extract_title content = pyStrip (strOf jv)) := by
  have hc : pyStrip content ≠ [] := by
    intro h
    rw [h] at h1
    rw [show braceSpan [] = none from rfl] at h1
    exact Option.noConfusion h1
  have hja : ∀ v, tryKeys o = some v → extract_title content = v := by
    intro v hv
    refine extract_of_jsonAttempt hc ?_
    simp [jsonAttempt, h1, h2, hv]
  refine ⟨?_, ?_, ?_⟩
  · intro jv hl ht
    refine hja _ ?_
    unfold tryKeys
    rw [tryKey_some hl ht]
    simp
  · intro hk1 jv hl ht
    refine hja _ ?_
    unfold tryKeys
    rw [tryKey_none hk1, tryKey_some hl ht]
    simp [Option.orElse]
  · intro hk1 hk2 jv hl ht
    refine hja _ ?_
    unfold tryKeys
    rw [tryKey_none hk1, tryKey_none hk2, tryKey_some hl ht]
    simp [Option.orElse]

/-- C6 witness: the amended theorem at a concrete raw output whose brace
span is a JSON object with a truthy `title`. -/
theorem extract_json_greedy_span_witness :
    extract_title (("\x7b\"title\": \" Hi \"\x7d").toList) =
      pyStrip (strOf (JVal.jstr ((" Hi ").toList))) :=
  (extract_json_greedy_span (("\x7b\"title\": \" Hi \"\x7d").toList)
      (("\x7b\"title\": \" Hi \"\x7d").toList)
      (JObj.cons keyTitle (JVal.jstr ((" Hi ").toList)) JObj.nil)
      (by decide) (by decide)).1
    (JVal.jstr ((" Hi ").toList)) (by decide) (by decide)

def c6ceContent : List Char := ("\x7b\"x\": \x7d \x7b\"title\": \"Hi\"\x7d").toList

def c6ceSub : List Char := ("\x7b\"title\": \"Hi\"\x7d").toList

/-- C6 counterexample: the raw output `{"x": } {"title": "Hi"}` CONTAINS a
JSON object substring (`{"title": "Hi"}`) with a non-empty `title`, yet the
greedy regex grabs the whole unparseable span `{"x": } {"title": "Hi"}`, the
JSON attempt fails, and the quoted-substring heuristic returns `"x"` — not
`"Hi"`.  The claim's "contains a JSON object substring" quantification is
wrong; only the greedy first-`{`-to-last-`}` span is ever parsed. -/
theorem extract_json_substring_ce :
    occursIn c6ceSub c6ceContent = true ∧
    pyJsonLoads c6ceSub =
      some (JVal.jobj (JObj.cons keyTitle (JVal.jstr (("Hi").toList)) JObj.nil)) ∧
    pyTruthy (JVal.jstr (("Hi").toList)) = true ∧
    extract_title c6ceContent = ("x").toList ∧
    extract_title c6ceContent ≠ pyStrip (strOf (JVal.jstr (("Hi").toList))) := by
  decide

/-- `ShopifySEOProcessor._rewrite_title` (processor.py:133-170), with the
external generation service abstracted as `svc : title → description →
Option content` (`none` models any raised failure — timeout, transport
error — and `some content` a successful response, its message content
already projected).  On failure the fallback is the length-enforced original
title; on success the content is extracted and length-enforced, with the
same fallback when that result is empty. -/
def rewrite_title (n : Nat) (svc : List Char → List Char → Option (List Char))
    (title desc : List Char) : List Char :=
  match svc title desc with
  | none => enforce_length n title
  | some content =>
    if enforce_length n (extract_title content) = [] then enforce_length n title
    else enforce_length n (extract_title content)

theorem enforce_length_nil (n : Nat) : enforce_length n ([] : List Char) = [] := by
  unfold enforce_length
  rw [show pyStrip ([] : List Char) = [] from rfl]
  simp

/-- C7 (amended): for every raw output that is empty or whitespace-only,
`extract` returns the empty string, and `rewrite` on such a service response
returns the length-enforced original title; `extract` is total (the model is
a Lean function).  The converse — emptiness of the result implying
empty/whitespace input — is refuted by `extract_empty_nonws_ce`: the JSON
path may extract a whitespace-only string value. -/
theorem extract_ws_empty_rewrite_fallback (n : Nat)
    (svc : List Char → List Char → Option (List Char)) (t d content : List Char)
    (hc : svc t d = some content) (hw : pyStrip content = []) :
    extract_title content = [] ∧ rewrite_title n svc t d = enforce_length n t := by
  have he : extract_title content = [] := by
    simp only [extract_title]
    rw [if_pos hw]
  refine ⟨he, ?_⟩
  simp [rewrite_title, hc, he, enforce_length_nil]

/-- C7 witness: a whitespace-only service response at concrete inputs. -/
theorem extract_ws_empty_rewrite_fallback_witness :
    extract_title (' ' :: []) = [] ∧
    rewrite_title 53 (fun _ _ => some (' ' :: [])) (('x') :: []) ([]) =
      enforce_length 53 (('x') :: []) :=
  extract_ws_empty_rewrite_fallback 53 (fun _ _ => some (' ' :: []))
    (('x') :: []) ([]) (' ' :: []) rfl (by decide)

def c7ceContent : List Char := ("\x7b\"title\": \" \"\x7d").toList

/-- C7 counterexample: the raw output `{"title": " "}` is NOT
empty/whitespace-only, yet `extract` returns the empty string: the JSON
value `" "` is truthy, so the structured rule fires and strips it to `""`.
The claim's "its result is empty only for empty/whitespace-only input" is
wrong. -/
theorem extract_empty_nonws_ce :
    extract_title c7ceContent = [] ∧ pyStrip c7ceContent ≠ [] := by
  decide

/-! ### The batch processor (`validate_csv` / `process_csv`)

A dataset row carries the three columns the pipeline reads; `none` models a
missing (pandas `NaN`) cell of the string-typed frame.  `str(nan)` is the
string `"nan"`.  File I/O, wall-clock timing (`processing_time`) and progress
printing are not modelled; the generated output path is abstracted as the
`outName` argument. -/

structure Row where
  status : Option (List Char)
  seoTitle : Option (List Char)
  seoDescription : Option (List Char)

def nanStr : List Char := ("nan").toList

/-- `str(row.get("Status", ""))` on the validated frame. -/
def statusStr (row : Row) : List Char := (row.status).getD nanStr

/-- `str(row.get("SEO Description", ""))` on the validated frame. -/
def descStr (row : Row) : List Char := (row.seoDescription).getD nanStr

def activeLit : List Char := ("active").toList

def draftLit : List Char := ("draft").toList

/-- The per-row callback `process_row` (processor.py:243-271), returning the
`Edited Title` cell and whether `edited_count` was incremented.  NOTE the
source guard is `status not in ("active")`: `("active")` is the plain string
`"active"`, so the test is Python substring membership, not equality. -/
def process_row (n : Nat) (svc : List Char → List Char → Option (List Char))
    (row : Row) : Option (List Char) × Bool :=
  if !(occursIn (pyLower (pyStrip (statusStr row))) activeLit)
      || row.seoTitle.isNone
      || (pyStrip ((row.seoTitle).getD [])).isEmpty then
    (row.seoTitle, false)
  else if ((row.seoTitle).getD []).length ≤ n then
    (row.seoTitle, false)
  else
    (some (rewrite_title n svc ((row.seoTitle).getD []) (descStr row)),
     decide (rewrite_title n svc ((row.seoTitle).getD []) (descStr row) ≠ (row.seoTitle).getD []))

/-- The progress tally `active_mask` (processor.py:236): a pandas `NaN`
status is not eligible; otherwise strip/lower and compare against
`["active", "draft"]`. -/
def progressEligible (row : Row) : Bool :=
  match row.status with
  | none => false
  | some s => (pyLower (pyStrip s) == activeLit) || (pyLower (pyStrip s) == draftLit)

def requiredCols : List (List Char) :=
  [("Title").toList, ("Body (HTML)").toList, ("Status").toList,
   ("SEO Title").toList, ("SEO Description").toList]

def missingCols (header : List (List Char)) : List (List Char) :=
  requiredCols.filter (fun c => !(header.contains c))

/-- Python `", ".join(xs)`. -/
def joinCommaSp : List (List Char) → List Char
  | [] => []
  | [x] => x
  | x :: xs => x ++ ',' :: ' ' :: joinCommaSp xs

def missingMsg (missing : List (List Char)) : List Char :=
  ("Missing required columns: ").toList ++ joinCommaSp missing

/-- `ShopifySEOProcessor.validate_csv` (processor.py:172-194) on the header
of a readable file. -/
def validate_csv (header : List (List Char)) : Bool × List Char :=
  if missingCols header = [] then (true, [])
  else (false, missingMsg (missingCols header))

structure ProcessingResult where
  output_file : List Char
  total_products : Nat
  active_products : Nat
  edited_titles : Nat
  success : Bool
  error_message : Option (List Char)

/-- `ShopifySEOProcessor.process_csv` (processor.py:196-297): validate, then
apply `process_row` to every row, counting the rows whose edited flag is set
(`edited_count` is bumped at most once per row). -/
def process_csv (n : Nat) (svc : List Char → List Char → Option (List Char))
    (outName : List Char) (header : List (List Char)) (rows : List Row) :
    ProcessingResult :=
  if (validate_csv header).1 then
    { output_file := outName
      total_products := rows.length
      active_products := rows.countP progressEligible
      edited_titles := rows.countP (fun r => (process_row n svc r).2)
      success := true
      error_message := none }
  else
    { output_file := []
      total_products := 0
      active_products := 0
      edited_titles := 0
      success := false
      error_message := some (validate_csv header).2 }

/-- A generation service whose every call raises (timeout/transport
failure). -/
def svcNone : List Char → List Char → Option (List Char) := fun _ _ => none

/-- A row whose status is `"act"` — not `"active"`, but a substring of it —
with an over-long 54-character title. -/
def rowAct : Row :=
  ⟨some (("act").toList), some (List.replicate 54 'a'), some (("d").toList)⟩

/-- C1 (code bug): the source guard `status not in ("active")` tests
substring membership in the string `"active"` instead of tuple membership,
so the row with status `"act"` — whose trimmed/lowercased status is NOT
`"active"` — passes the guard and IS rewritten (its edited flag is set and
its `Edited Title` differs from its `seoTitle`), contradicting the source's
own comment "Only process active titles, skip others" and the spec's
eligibility rule. -/
theorem process_row_substring_status_bug :
    pyLower (pyStrip (statusStr rowAct)) ≠ activeLit ∧
    (process_row 53 svcNone rowAct).2 = true ∧
    (process_row 53 svcNone rowAct).1 = some (List.replicate 53 'a') ∧
    (process_row 53 svcNone rowAct).1 ≠ rowAct.seoTitle := by
  decide

/-- C2 (code bug): on the one-row dataset whose row has status `"act"` and
an over-long title, the run succeeds with `edited_titles = 1` but
`active_products = 0` (the progress tally counts only `active`/`draft`
statuses while the rewrite guard accepts any substring of `"active"`), so
the spec invariant `editedCount ≤ eligibleRecords` fails. -/
theorem process_csv_edited_exceeds_eligible_bug :
    (process_csv 53 svcNone (("o.csv").toList) requiredCols [rowAct]).success = true ∧
    (process_csv 53 svcNone (("o.csv").toList) requiredCols [rowAct]).total_products = 1 ∧
    (process_csv 53 svcNone (("o.csv").toList) requiredCols [rowAct]).active_products = 0 ∧
    (process_csv 53 svcNone (("o.csv").toList) requiredCols [rowAct]).edited_titles = 1 := by
  decide

theorem missingMsg_ne_nil (m : List (List Char)) : missingMsg m ≠ [] := by
  unfold missingMsg
  intro h
  have h1 := (List.append_eq_nil.mp h).1
  exact absurd h1 (by decide)

/-- C9: the embedded batch operation is a total function; in particular, for
every dataset whose header misses a required column, it returns (before any
row is processed — the result does not depend on `rows` or `svc`) a
`ProcessingResult` with `success = false`, all counts zero, and a non-empty
error message enumerating exactly the missing columns. -/
theorem process_csv_missing_columns (n : Nat)
    (svc : List Char → List Char → Option (List Char)) (outName : List Char)
    (header : List (List Char)) (rows : List Row)
    (h : missingCols header ≠ []) :
    (process_csv n svc outName header rows).success = false ∧
    (process_csv n svc outName header rows).total_products = 0 ∧
    (process_csv n svc outName header rows).active_products = 0 ∧
    (process_csv n svc outName header rows).edited_titles = 0 ∧
    (process_csv n svc outName header rows).error_message =
      some (missingMsg (missingCols header)) ∧
    missingMsg (missingCols header) ≠ [] := by
  have hv : validate_csv header = (false, missingMsg (missingCols header)) := by
    unfold validate_csv
    rw [if_neg h]
  unfold process_csv
  rw [hv]
  exact ⟨rfl, rfl, rfl, rfl, rfl, missingMsg_ne_nil _⟩

/-- C9 witness: a header with only the `Title` column. -/
theorem process_csv_missing_columns_witness :
    (process_csv 53 svcNone (("o.csv").toList) [("Title").toList] []).success = false ∧
    (process_csv 53 svcNone (("o.csv").toList) [("Title").toList] []).total_products = 0 ∧
    (process_csv 53 svcNone (("o.csv").toList) [("Title").toList] []).active_products = 0 ∧
    (process_csv 53 svcNone (("o.csv").toList) [("Title").toList] []).edited_titles = 0 ∧
    (process_csv 53 svcNone (("o.csv").toList) [("Title").toList] []).error_message =
      some (missingMsg (missingCols [("Title").toList])) ∧
    missingMsg (missingCols [("Title").toList]) ≠ [] :=
  process_csv_missing_columns 53 svcNone (("o.csv").toList) [("Title").toList] []
    (by decide)

theorem process_row_rewrites {n : Nat}
    {svc : List Char → List Char → Option (List Char)} {row : Row} {t : List Char}
    (ht : row.seoTitle = some t)
    (hstat : occursIn (pyLower (pyStrip (statusStr row))) activeLit = true)
    (hnb : (pyStrip t).isEmpty = false)
    (hlen : n < t.length) :
    process_row n svc row =
      (some (rewrite_title n svc t (descStr row)),
       decide (rewrite_title n svc t (descStr row) ≠ t)) := by
  unfold process_row
  rw [ht]
  simp only [Option.getD_some, Option.isNone_some, hstat, hnb, Bool.not_true,
    Bool.or_self, Bool.false_or, Bool.or_false, if_false]
  have hgt : ¬t.length ≤ n := by omega
  rw [if_neg hgt]
  simp

/-- C8: when the generation service fails on every call, `rewrite` does not
propagate the error and returns exactly `enforce(originalTitle, n)`; an
eligible row (status passes the source guard, non-blank over-long title)
then gets `Edited Title = enforce(originalTitle, n)`, and a batch over a
valid header still completes with `success = true`. -/
theorem rewrite_fallback_on_failure (n : Nat)
    (svc : List Char → List Char → Option (List Char)) (row : Row) (t : List Char)
    (outName : List Char) (header : List (List Char)) (rows : List Row)
    (hsvc : ∀ a b, svc a b = none)
    (ht : row.seoTitle = some t)
    (hstat : occursIn (pyLower (pyStrip (statusStr row))) activeLit = true)
    (hnb : (pyStrip t).isEmpty = false)
    (hlen : n < t.length)
    (hhdr : missingCols header = []) :
    rewrite_title n svc t (descStr row) = enforce_length n t ∧
    (process_row n svc row).1 = some (enforce_length n t) ∧
    (process_csv n svc outName header rows).success = true := by
  have hrw : rewrite_title n svc t (descStr row) = enforce_length n t := by
    unfold rewrite_title
    rw [hsvc t (descStr row)]
  refine ⟨hrw, ?_, ?_⟩
  · rw [process_row_rewrites ht hstat hnb hlen, hrw]
  · have hv : validate_csv header = (true, []) := by
      unfold validate_csv
      rw [if_pos hhdr]
    unfold process_csv
    rw [hv]
    rfl

/-- C8 witness: a fully eligible concrete row under a failing service. -/
theorem rewrite_fallback_on_failure_witness :
    rewrite_title 53 svcNone (List.replicate 54 'a')
        (descStr ⟨some (("active").toList), some (List.replicate 54 'a'), none⟩) =
      enforce_length 53 (List.replicate 54 'a') ∧
    (process_row 53 svcNone
        ⟨some (("active").toList), some (List.replicate 54 'a'), none⟩).1 =
      some (enforce_length 53 (List.replicate 54 'a')) ∧
    (process_csv 53 svcNone (("o.csv").toList) requiredCols []).success = true :=
  rewrite_fallback_on_failure 53 svcNone
    ⟨some (("active").toList), some (List.replicate 54 'a'), none⟩
    (List.replicate 54 'a') (("o.csv").toList) requiredCols []
    (fun _ _ => rfl) rfl (by decide) (by decide) (by decide) (by decide)

/-- C10: for every row that passes the source's rewrite guard (status
substring test, non-blank title, `len(title) > n`), a failing service call
still sets the edited flag — the fallback `enforce(title, n)` has length
`≤ n < len(title)`, hence differs from the original title, so `edited_count`
counts fallback-truncated rows exactly like AI-rewritten ones. -/
theorem fallback_counts_as_edit (n : Nat)
    (svc : List Char → List Char → Option (List Char)) (row : Row) (t : List Char)
    (hsvc : svc t (descStr row) = none)
    (ht : row.seoTitle = some t)
    (hstat : occursIn (pyLower (pyStrip (statusStr row))) activeLit = true)
    (hnb : (pyStrip t).isEmpty = false)
    (hlen : n < t.length) :
    (process_row n svc row).2 = true ∧
    (enforce_length n t).length ≤ n := by
  have hrw : rewrite_title n svc t (descStr row) = enforce_length n t := by
    unfold rewrite_title
    rw [hsvc]
  have hne : rewrite_title n svc t (descStr row) ≠ t := by
    rw [hrw]
    intro h
    have h1 := enforce_length_le n t
    rw [h] at h1
    omega
  refine ⟨?_, enforce_length_le n t⟩
  rw [process_row_rewrites ht hstat hnb hlen]
  simp [hne]

/-- C10 witness: a concrete eligible row under a failing service. -/
theorem fallback_counts_as_edit_witness :
    (process_row 53 svcNone
        ⟨some (("active").toList), some (List.replicate 54 'a'), none⟩).2 = true ∧
    (enforce_length 53 (List.replicate 54 'a')).length ≤ 53 :=
  fallback_counts_as_edit 53 svcNone
    ⟨some (("active").toList), some (List.replicate 54 'a'), none⟩
    (List.replicate 54 'a') rfl rfl (by decide) (by decide) (by decide)

end ShopifySeo
